import Mathlib

/-!
Verification of the path-tracing core of the Ray_compute repository
(PathTracing.cpp and src/ray_tracer/utils.h).

The C++ double arithmetic is embedded as exact rational arithmetic.
Square roots do not exist inside the rationals, so every place the C++
calls sqrt the embedding takes the resulting value as an explicit
parameter, constrained in the theorems by the defining equations
(sq * sq = radicand, 0 <= sq).  Division by zero follows the Lean
convention x / 0 = 0.  The pseudo random values consumed by the
algorithms (normRand results, sampled directions) enter the embedded
functions as parameters, exactly as the concrete values flow through
the corresponding C++ expressions.
-/

namespace RayCompute

/-- Rational 3-component vector, mirroring struct Vector of utils.h.
Used for positions, directions and RGB colors alike. -/
structure Vec where
  x : ℚ
  y : ℚ
  z : ℚ
deriving DecidableEq

/-- Component-wise addition, operator+ of Vector. -/
def Vec.add (a b : Vec) : Vec := ⟨a.x + b.x, a.y + b.y, a.z + b.z⟩

/-- Component-wise subtraction, operator- of Vector. -/
def Vec.sub (a b : Vec) : Vec := ⟨a.x - b.x, a.y - b.y, a.z - b.z⟩

/-- Scaling by a scalar, operator* of Vector. -/
def Vec.smul (a : Vec) (c : ℚ) : Vec := ⟨a.x * c, a.y * c, a.z * c⟩

/-- Component-wise division by a scalar, operator/ of Vector. -/
def Vec.divc (a : Vec) (c : ℚ) : Vec := ⟨a.x / c, a.y / c, a.z / c⟩

/-- MultComponents of Vector: component-wise product. -/
def Vec.mult (a b : Vec) : Vec := ⟨a.x * b.x, a.y * b.y, a.z * b.z⟩

/-- Dot of Vector. -/
def Vec.dot (a b : Vec) : ℚ := a.x * b.x + a.y * b.y + a.z * b.z

/-- Cross of Vector. -/
def Vec.cross (a b : Vec) : Vec :=
  ⟨a.y * b.z - a.z * b.y, a.z * b.x - a.x * b.z, a.x * b.y - a.y * b.x⟩

/-- Max of Vector: fmax(z, fmax(x, y)), the maximum RGB channel. -/
def Vec.maxc (a : Vec) : ℚ := max a.z (max a.x a.y)

/-- Scalar clamp to [0,1]: v < 0 gives 0, v > 1 gives 1, otherwise v. -/
def clamp01 (v : ℚ) : ℚ := if v < 0 then 0 else if v > 1 then 1 else v

/-- clamp of Vector: clamps every channel to [0,1]. -/
def Vec.clamp (a : Vec) : Vec := ⟨clamp01 a.x, clamp01 a.y, clamp01 a.z⟩

/-- The zero vector, Vector() and the background color. -/
def Vec.zero : Vec := ⟨0, 0, 0⟩

/-- Normalized of Vector, with the length sqrt(x*x+y*y+z*z) supplied
as the parameter len: the C++ divides each component by that length. -/
def Vec.normalizedW (a : Vec) (len : ℚ) : Vec := a.divc len

/-- The self-intersection bias eps = 1e-4 of utils.h. -/
def eps : ℚ := 1 / 10000

/-- Ray with origin and direction, struct Ray of utils.h. -/
structure Ray where
  org : Vec
  dir : Vec
deriving DecidableEq

/-- Material kinds, enum Refl_t of utils.h. -/
inductive Refl where
  | DIFF
  | SPEC
  | REFR
deriving DecidableEq

/-- Sphere primitive of utils.h: radius, center, and the Primitive
fields emission, color, refl. -/
structure Sphere where
  radius : ℚ
  center : Vec
  emission : Vec
  color : Vec
  refl : Refl
deriving DecidableEq

/-- The coefficient b = (C - O) . D of the sphere-ray quadratic
in Sphere::Intersect. -/
def Sphere.bOf (s : Sphere) (ray : Ray) : ℚ :=
  (s.center.sub ray.org).dot ray.dir

/-- The discriminant (called radicant in Sphere::Intersect):
b*b - (C-O).(C-O) + r*r. -/
def Sphere.radicantOf (s : Sphere) (ray : Ray) : ℚ :=
  let c2o := s.center.sub ray.org
  let b := c2o.dot ray.dir
  b * b - c2o.dot c2o + s.radius * s.radius

/-- Sphere::Intersect of utils.h.  The parameter sq stands for the
value sqrt(radicant) computed by the C++ when the radicant is
non-negative; the radicant < 0 branch never reads it. -/
def Sphere.IntersectW (s : Sphere) (ray : Ray) (sq : ℚ) : ℚ :=
  if s.radicantOf ray < 0 then 0
  else
    let b := s.bOf ray
    if b - sq > eps then b - sq
    else if b + sq > eps then b + sq
    else 0

/-- Triangle primitive of utils.h.  The fields a_len and b_len of the
C++ class are precomputed edge lengths that no member function reads;
they are omitted. -/
structure Tri where
  p0 : Vec
  p1 : Vec
  p2 : Vec
  edge_a : Vec
  edge_b : Vec
  normal : Vec
  emission : Vec
  color : Vec
  refl : Refl
deriving DecidableEq

/-- The Triangle constructor of utils.h: stores p0 and the two edges,
sets p1 = p0 + a, p2 = p0 + b, normal = (a x b).Normalized() with the
length of the cross product supplied as len, and hard-codes the
material kind DIFF. -/
def mkTriangleW (p0 a b emi col : Vec) (len : ℚ) : Tri :=
  ⟨p0, p0.add a, p0.add b, a, b, (a.cross b).normalizedW len, emi, col, Refl.DIFF⟩

/-- The ray parameter of the supporting-plane intersection in
Triangle::Intersect: (p0 - O) . n / (D . n). -/
def Tri.planeT (tr : Tri) (ray : Ray) : ℚ :=
  ((tr.p0.sub ray.org).dot tr.normal) / (ray.dir.dot tr.normal)

/-- The 2x2 barycentric solve of Triangle::Intersect on a projected
axis pair (u, v): returns (lambda0, lambda1). -/
def lamPair (p0u p0v p1u p1v p2u p2v qu qv : ℚ) : ℚ × ℚ :=
  (((p1v - p2v) * (qu - p2u) + (p2u - p1u) * (qv - p2v)) /
     ((p0u - p2u) * (p1v - p2v) - (p0v - p2v) * (p1u - p2u)),
   ((p2v - p0v) * (qu - p2u) + (p0u - p2u) * (qv - p2v)) /
     ((p0u - p2u) * (p1v - p2v) - (p0v - p2v) * (p1u - p2u)))

/-- The axis-pair selection of Triangle::Intersect: the initial
unconditional x-y solve, overridden by the y-z solve when all three x
coordinates agree and by the x-z solve when all three y coordinates
agree (the all-z-equal branch recomputes the identical x-y solve). -/
def Tri.lambdas (tr : Tri) (q : Vec) : ℚ × ℚ :=
  if tr.p0.z = tr.p2.z ∧ tr.p1.z = tr.p2.z then
    lamPair tr.p0.x tr.p0.y tr.p1.x tr.p1.y tr.p2.x tr.p2.y q.x q.y
  else if tr.p0.x = tr.p2.x ∧ tr.p1.x = tr.p2.x then
    lamPair tr.p0.y tr.p0.z tr.p1.y tr.p1.z tr.p2.y tr.p2.z q.y q.z
  else if tr.p0.y = tr.p2.y ∧ tr.p1.y = tr.p2.y then
    lamPair tr.p0.x tr.p0.z tr.p1.x tr.p1.z tr.p2.x tr.p2.z q.x q.z
  else
    lamPair tr.p0.x tr.p0.y tr.p1.x tr.p1.y tr.p2.x tr.p2.y q.x q.y

/-- Triangle::Intersect of utils.h: plane hit, barycentric solve,
acceptance only when all three coordinates lie in [0,1]. -/
def Tri.Intersect (tr : Tri) (ray : Ray) : ℚ :=
  let t := tr.planeT ray
  if t ≤ eps then 0
  else
    let q := ray.org.add (ray.dir.smul t)
    let lams := tr.lambdas q
    let lam2 := 1 - lams.1 - lams.2
    if lams.1 > 1 ∨ lams.1 < 0 ∨ lams.2 > 1 ∨ lams.2 < 0 ∨ lam2 > 1 ∨ lam2 < 0 then 0
    else t

/-- The static geometry flag of PathTracing.cpp: the triangle scene
is the active one. -/
def useTriangles : Bool := true

/-- The initial nearest-distance sentinel 1e20 of IntersectSpheres
and IntersectTriangles. -/
def bigT : ℚ := 100000000000000000000

/-- The linear scan of IntersectSpheres / IntersectTriangles over the
list of per-primitive intersection results: an entry d registers when
d > 0 and d < the current nearest t.  i is the index of the head entry,
t and idx the current nearest distance and index. -/
def scanHits : List ℚ → ℕ → ℚ → ℕ → ℚ × ℕ
  | [], _, t, idx => (t, idx)
  | d :: ds, i, t, idx =>
      if 0 < d ∧ d < t then scanHits ds (i + 1) d i
      else scanHits ds (i + 1) t idx

/-- IntersectTriangles of PathTracing.cpp: scans all triangles,
returns (hit found, nearest t, index), with hit found exactly when the
final t is below the 1e20 sentinel.  The index starts at 0 as in the
caller Radiance. -/
def IntersectTriangles (tris : List Tri) (ray : Ray) : Bool × ℚ × ℕ :=
  let r := scanHits (tris.map (fun tr => tr.Intersect ray)) 0 bigT 0
  (decide (r.1 < bigT), r.1, r.2)

/-- The hard-coded light source of utils.h:
Sphere(1.5, Vector(50, 81.6-16.5, 81.6), Vector(4,4,4)*100, Vector(), DIFF). -/
def LightSource : Sphere :=
  ⟨3 / 2, ⟨50, 651 / 10, 408 / 5⟩, ⟨400, 400, 400⟩, Vec.zero, Refl.DIFF⟩

/-- IntersectLightSource of PathTracing.cpp: intersects the ray with
the light-source sphere only and returns d > 0.  No other primitive is
consulted.  sq again stands for sqrt of the light-sphere radicant. -/
def IntersectLightSourceW (ray : Ray) (sq : ℚ) : Bool :=
  decide (LightSource.IntersectW ray sq > 0)

/-- The hard-coded triangle scene of utils.h (the two commented-out
area-light triangles are absent from the C++ initializer and from this
list).  Each constructor call supplies the exact length of the cross
product of its two axis-aligned edges. -/
def sceneTriangles : List Tri :=
  [ mkTriangleW ⟨0, 0, 0⟩ ⟨100, 0, 0⟩ ⟨0, 80, 0⟩ Vec.zero ⟨3/4, 3/4, 3/4⟩ 8000,
    mkTriangleW ⟨100, 80, 0⟩ ⟨-100, 0, 0⟩ ⟨0, -80, 0⟩ Vec.zero ⟨3/4, 3/4, 3/4⟩ 8000,
    mkTriangleW ⟨0, 0, 170⟩ ⟨100, 0, 0⟩ ⟨0, 0, -170⟩ Vec.zero ⟨3/4, 3/4, 3/4⟩ 17000,
    mkTriangleW ⟨100, 0, 0⟩ ⟨-100, 0, 0⟩ ⟨0, 0, 170⟩ Vec.zero ⟨3/4, 3/4, 3/4⟩ 17000,
    mkTriangleW ⟨0, 80, 0⟩ ⟨100, 0, 0⟩ ⟨0, 0, 170⟩ Vec.zero ⟨3/4, 3/4, 3/4⟩ 17000,
    mkTriangleW ⟨100, 80, 170⟩ ⟨-100, 0, 0⟩ ⟨0, 0, -170⟩ Vec.zero ⟨3/4, 3/4, 3/4⟩ 17000,
    mkTriangleW ⟨0, 0, 170⟩ ⟨0, 0, -170⟩ ⟨0, 80, 0⟩ Vec.zero ⟨3/4, 1/4, 1/4⟩ 13600,
    mkTriangleW ⟨0, 80, 0⟩ ⟨0, 0, 170⟩ ⟨0, -80, 0⟩ Vec.zero ⟨3/4, 1/4, 1/4⟩ 13600,
    mkTriangleW ⟨100, 0, 0⟩ ⟨0, 0, 170⟩ ⟨0, 80, 0⟩ Vec.zero ⟨1/4, 1/4, 3/4⟩ 13600,
    mkTriangleW ⟨100, 80, 170⟩ ⟨0, 0, -170⟩ ⟨0, -80, 0⟩ Vec.zero ⟨1/4, 1/4, 3/4⟩ 13600,
    mkTriangleW ⟨100, 0, 170⟩ ⟨-100, 0, 0⟩ ⟨0, -80, 0⟩ Vec.zero ⟨0, 1, 0⟩ 8000,
    mkTriangleW ⟨0, -80, 170⟩ ⟨100, 0, 0⟩ ⟨0, 80, 0⟩ Vec.zero ⟨0, 1, 0⟩ 8000,
    mkTriangleW ⟨30, 0, 100⟩ ⟨0, 0, -20⟩ ⟨0, 40, 0⟩ Vec.zero ⟨3/4, 3/4, 3/4⟩ 800,
    mkTriangleW ⟨30, 40, 80⟩ ⟨0, 0, 20⟩ ⟨0, -40, 0⟩ Vec.zero ⟨3/4, 3/4, 3/4⟩ 800,
    mkTriangleW ⟨10, 0, 80⟩ ⟨0, 0, 20⟩ ⟨0, 40, 0⟩ Vec.zero ⟨3/4, 3/4, 3/4⟩ 800,
    mkTriangleW ⟨10, 40, 100⟩ ⟨0, 0, -20⟩ ⟨0, -40, 0⟩ Vec.zero ⟨3/4, 3/4, 3/4⟩ 800,
    mkTriangleW ⟨10, 0, 100⟩ ⟨20, 0, 0⟩ ⟨0, 40, 0⟩ Vec.zero ⟨3/4, 3/4, 3/4⟩ 800,
    mkTriangleW ⟨30, 40, 100⟩ ⟨-20, 0, 0⟩ ⟨0, -40, 0⟩ Vec.zero ⟨3/4, 3/4, 3/4⟩ 800,
    mkTriangleW ⟨30, 0, 80⟩ ⟨-20, 0, 0⟩ ⟨0, 40, 0⟩ Vec.zero ⟨3/4, 3/4, 3/4⟩ 800,
    mkTriangleW ⟨10, 40, 80⟩ ⟨20, 0, 0⟩ ⟨0, -40, 0⟩ Vec.zero ⟨3/4, 3/4, 3/4⟩ 800,
    mkTriangleW ⟨10, 40, 100⟩ ⟨20, 0, 0⟩ ⟨0, 0, -20⟩ Vec.zero ⟨3/4, 3/4, 3/4⟩ 400,
    mkTriangleW ⟨30, 40, 80⟩ ⟨-20, 0, 0⟩ ⟨0, 0, 20⟩ Vec.zero ⟨3/4, 3/4, 3/4⟩ 400 ]

/-- The glibc RAND_MAX consumed by normRand in utils.h; rand() yields
integers in [0, RAND_MAX]. -/
def RAND_MAX : ℕ := 2147483647

/-- normRand of utils.h: (double)rand() / (double)RAND_MAX, with the
rand() result passed in as r. -/
def normRandM (r : ℕ) : ℚ := (r : ℚ) / (RAND_MAX : ℚ)

/-- The maximum bounce count maxDepth = 5 of PathTracing.cpp. -/
def maxDepth : ℕ := 5

/-- The samples-per-subpixel count nbSamples = 50 of PathTracing.cpp. -/
def nbSamples : ℕ := 50

/-- Outcome of the Russian-roulette step of Radiance: either the path
continues with a possibly rescaled albedo, or Radiance returns the
given result with no recursive call. -/
inductive RROut where
  | next (albedo : Vec)
  | stop (result : Vec)
deriving DecidableEq

/-- The Russian-roulette step of Radiance (the block guarded by
_depth > maxDepth || !p): depth is the already incremented _depth, rnd
the normRand() draw, E the emission gate _E.  When the guard fails the
block is skipped and the albedo flows on unchanged. -/
def rouletteStep (depth : ℕ) (albedo emission : Vec) (E rnd : ℚ) : RROut :=
  let p := albedo.maxc
  if depth > maxDepth ∨ p = 0 then
    if rnd < p then RROut.next (albedo.smul (1 / p))
    else RROut.stop (emission.smul E)
  else RROut.next albedo

/-- The branch dispatch of Radiance on the hit primitive material:
obj.refl == DIFF, else obj.refl == SPEC, else the refractive code. -/
inductive MatBranch where
  | diffuse
  | specular
  | refractive
deriving DecidableEq

/-- The material dispatch of Radiance. -/
def materialBranch (r : Refl) : MatBranch :=
  if r = Refl.DIFF then MatBranch.diffuse
  else if r = Refl.SPEC then MatBranch.specular
  else MatBranch.refractive

/-- The perfect mirror direction of the SPEC branch of Radiance:
_ray.dir - normal * 2 * normal.Dot(_ray.dir). -/
def reflectDir (dir normal : Vec) : Vec :=
  dir.sub ((normal.smul 2).smul (normal.dot dir))

/-- Index of refraction of air, nc = 1.0 of the refractive branch. -/
def nc : ℚ := 1

/-- Index of refraction of glass, nt = 1.5 of the refractive branch. -/
def nt : ℚ := 3 / 2

/-- R0 of the Schlick approximation: a*a/(b*b) with a = nt - nc and
b = nt + nc. -/
def R0 : ℚ := (nt - nc) * (nt - nc) / ((nt + nc) * (nt + nc))

/-- The Schlick reflectance Re = R0 + (1 - R0) * c^5 of the
refractive branch. -/
def schlickRe (c : ℚ) : ℚ := R0 + (1 - R0) * c * c * c * c * c

/-- The cosine-term input c of the Schlick formula when the ray
enters the medium (into true): c = 1 + ddn with ddn = dir . nl. -/
def schlickCEnter (ddn : ℚ) : ℚ := 1 + ddn

/-- The cosine-term input c when the ray exits (into false):
c = 1 - tdir . n. -/
def schlickCExit (tdirDotN : ℚ) : ℚ := 1 - tdirDotN

/-- The depth threshold of the refractive branch: both sub-paths are
evaluated while _depth < 3. -/
def refrSplitDepth : ℕ := 3

/-- The tail of the refractive branch of Radiance (after Re and Tr
are known): depth is the incremented _depth, rnd the normRand() draw
of the Russian-roulette case, re the Schlick reflectance, and
radRefl / radRefr the values of the two recursive Radiance calls.
Mirrors the expressions P, RP, TP and the final conditional return. -/
def refrCombine (depth : ℕ) (rnd re : ℚ) (emission col radRefl radRefr : Vec) : Vec :=
  let tr := 1 - re
  let P := 1/4 + 1/2 * re
  let RP := re / P
  let TP := tr / (1 - P)
  if depth < refrSplitDepth then
    emission.add (col.mult ((radRefl.smul re).add (radRefr.smul tr)))
  else if rnd < P then emission.add (col.mult (radRefl.smul RP))
  else emission.add (col.mult (radRefr.smul TP))

/-- The explicit direct-lighting step of the diffuse branch of
Radiance (the shadow-ray conditional): hitpoint and the sampled unit
direction l form the shadow ray, nl is the oriented normal, albedo the
surface color, cosAMax the cone cosine computed upstream, piV the
value of M_PI, and sq the sqrt witness for the light-sphere radicant.
When IntersectLightSource succeeds the term
albedo (x) (lightEmission * (l . nl) * omega) * (1/pi) with
omega = 2 pi (1 - cosAMax) is produced, otherwise the zero vector. -/
def directLightW (hitpoint l nl albedo : Vec) (cosAMax piV sq : ℚ) : Vec :=
  if IntersectLightSourceW ⟨hitpoint, l⟩ sq then
    let omega := 2 * piV * (1 - cosAMax)
    (albedo.mult ((LightSource.emission.smul (l.dot nl)).smul omega)).smul (1 / piV)
  else Vec.zero

/-- Occlusion test used to compare the code against the specification
sentence: some triangle of the list intersects the ray strictly
between the origin bias and the light-hit distance tLight. -/
def occludedBefore (tris : List Tri) (ray : Ray) (tLight : ℚ) : Bool :=
  tris.any (fun tr => decide (0 < tr.Intersect ray) && decide (tr.Intersect ray < tLight))

/-- Sum of a list of vectors. -/
def vsum (l : List Vec) : Vec := l.foldl Vec.add Vec.zero

/-- The per-subpixel sample loop of Render: starting from the black
Color(), every Radiance sample is divided by nbSamples and added. -/
def subpixelAccum (samples : List Vec) : Vec :=
  samples.foldl (fun acc r => acc.add (r.divc (nbSamples : ℚ))) Vec.zero

/-- The per-subpixel contribution of Render: the accumulated radiance
clamped to [0,1] per channel and scaled by 0.25. -/
def subpixelContribution (samples : List Vec) : Vec :=
  (subpixelAccum samples).clamp.smul (1 / 4)

/-- The per-pixel accumulation of Render: the pixel is initialised
with black and the four subpixel contributions are added in loop
order. -/
def pixelColor (s00 s01 s10 s11 : List Vec) : Vec :=
  (((Vec.zero.add (subpixelContribution s00)).add (subpixelContribution s01)).add
      (subpixelContribution s10)).add (subpixelContribution s11)

/-- The plane-hit point q = O + D * t of Triangle::Intersect at the
supporting-plane parameter. -/
def Tri.hitQ (tr : Tri) (ray : Ray) : Vec :=
  ray.org.add (ray.dir.smul (tr.planeT ray))

/-- Concrete sphere used to exercise Sphere::Intersect: unit radius,
center on the ray axis three units ahead. -/
def demoSphere : Sphere := ⟨1, ⟨0, 0, 3⟩, Vec.zero, Vec.zero, Refl.DIFF⟩

/-- Concrete ray through the center of demoSphere. -/
def demoRay : Ray := ⟨⟨0, 0, 0⟩, ⟨0, 0, 1⟩⟩

/-- The first back-wall triangle of the scene, with unit normal (0,0,1). -/
def backWallTri : Tri :=
  mkTriangleW ⟨0, 0, 0⟩ ⟨100, 0, 0⟩ ⟨0, 80, 0⟩ Vec.zero ⟨3/4, 3/4, 3/4⟩ 8000

/-- A ray parallel to the back wall. -/
def parallelRay : Ray := ⟨⟨5, 5, 5⟩, ⟨1, 0, 0⟩⟩

/-- A ray inside the box that hits the back wall at distance 50. -/
def nearRay : Ray := ⟨⟨50, 40, 50⟩, ⟨0, 0, -1⟩⟩

/-- A ray far outside the box: every triangle it strikes lies at a
distance of about 2e20, beyond the 1e20 sentinel of the scene scan. -/
def farRay : Ray := ⟨⟨50, 40, 200000000000000000000⟩, ⟨0, 0, -1⟩⟩

/-- Concrete diffuse hit point for the direct-lighting theorem: ten
units straight below the light-source center. -/
def hpW : Vec := ⟨50, 651/10, 358/5⟩

/-- Unit shadow-ray direction from hpW to the light center. -/
def lW : Vec := ⟨0, 0, 1⟩

/-- Floor point whose shadow ray toward the light center passes
through the interior of the cuboid: hpCE = lightCenter - dist * lCE
with dist = 5425/64. -/
def hpCE : Vec := ⟨47/40, 0, 33707/320⟩

/-- Unit direction from hpCE to the light-source center:
(72, 96, -35) / 125. -/
def lCE : Vec := ⟨72/125, 96/125, -7/25⟩

/-- Concrete subpixel sample list of length nbSamples. -/
def demoSamples : List Vec := List.replicate 50 ⟨2, 0, 1⟩

/-! ## IEEE-semantics embedding of Triangle::Intersect

The rational embedding above uses the Lean convention x / 0 = 0, which
collapses the IEEE special values that Triangle::Intersect produces on
a parallel ray or a degenerate triangle.  The following second
embedding of the same source function keeps those values: an extended
rational is a finite exact rational, +infinity, -infinity, or NaN, and
the operations follow IEEE-754 double semantics (infinity and NaN
propagation, every comparison with NaN false).  Zeros are unsigned and
behave as IEEE +0 under division; in every concrete evaluation below
the corresponding IEEE computation produces +0 at that spot, so the
convention is exact there, and all finite intermediate values of those
evaluations are small integers or simple fractions that doubles
represent exactly. -/

/-- Extended rational mirroring an IEEE double value: finite (exact),
positive infinity, negative infinity, or NaN. -/
inductive FQ where
  | fin (q : ℚ)
  | pinf
  | ninf
  | nan
deriving DecidableEq

/-- IEEE negation. -/
def FQ.neg : FQ → FQ
  | fin q => fin (-q)
  | pinf => ninf
  | ninf => pinf
  | nan => nan

/-- IEEE addition: infinities absorb finite values, opposite
infinities give NaN, NaN propagates. -/
def FQ.add : FQ → FQ → FQ
  | fin a, fin b => fin (a + b)
  | fin _, pinf => pinf
  | fin _, ninf => ninf
  | fin _, nan => nan
  | pinf, fin _ => pinf
  | pinf, pinf => pinf
  | pinf, ninf => nan
  | pinf, nan => nan
  | ninf, fin _ => ninf
  | ninf, pinf => nan
  | ninf, ninf => ninf
  | ninf, nan => nan
  | nan, _ => nan

/-- IEEE subtraction x - y = x + (-y). -/
def FQ.sub (a b : FQ) : FQ := a.add b.neg

/-- IEEE multiplication: zero times infinity is NaN, signs multiply,
NaN propagates. -/
def FQ.mul : FQ → FQ → FQ
  | fin a, fin b => fin (a * b)
  | fin a, pinf => if a = 0 then nan else if 0 < a then pinf else ninf
  | fin a, ninf => if a = 0 then nan else if 0 < a then ninf else pinf
  | fin _, nan => nan
  | pinf, fin b => if b = 0 then nan else if 0 < b then pinf else ninf
  | pinf, pinf => pinf
  | pinf, ninf => ninf
  | pinf, nan => nan
  | ninf, fin b => if b = 0 then nan else if 0 < b then ninf else pinf
  | ninf, pinf => ninf
  | ninf, ninf => pinf
  | ninf, nan => nan
  | nan, _ => nan

/-- IEEE division: finite over zero gives a signed infinity (0/0 is
NaN), finite over infinity gives zero, infinity over infinity and
anything with NaN gives NaN.  The unsigned zero divisor behaves as
IEEE +0. -/
def FQ.div : FQ → FQ → FQ
  | fin a, fin b =>
      if b = 0 then (if a = 0 then nan else if 0 < a then pinf else ninf)
      else fin (a / b)
  | fin _, pinf => fin 0
  | fin _, ninf => fin 0
  | fin _, nan => nan
  | pinf, fin b => if 0 ≤ b then pinf else ninf
  | pinf, pinf => nan
  | pinf, ninf => nan
  | pinf, nan => nan
  | ninf, fin b => if 0 ≤ b then ninf else pinf
  | ninf, pinf => nan
  | ninf, ninf => nan
  | ninf, nan => nan
  | nan, _ => nan

/-- IEEE strict less-than: false whenever NaN is involved. -/
def FQ.flt : FQ → FQ → Bool
  | fin a, fin b => decide (a < b)
  | fin _, pinf => true
  | fin _, ninf => false
  | pinf, fin _ => false
  | pinf, pinf => false
  | pinf, ninf => false
  | ninf, fin _ => true
  | ninf, pinf => true
  | ninf, ninf => false
  | nan, _ => false
  | _, nan => false

/-- IEEE less-or-equal: false whenever NaN is involved. -/
def FQ.fle : FQ → FQ → Bool
  | fin a, fin b => decide (a ≤ b)
  | fin _, pinf => true
  | fin _, ninf => false
  | pinf, fin _ => false
  | pinf, pinf => true
  | pinf, ninf => false
  | ninf, fin _ => true
  | ninf, pinf => true
  | ninf, ninf => true
  | nan, _ => false
  | _, nan => false

/-- IEEE greater-than: a > b is b < a. -/
def FQ.fgt (a b : FQ) : Bool := FQ.flt b a

/-- IEEE equality: false whenever NaN is involved (NaN is not equal
to itself). -/
def FQ.feq : FQ → FQ → Bool
  | fin a, fin b => decide (a = b)
  | pinf, pinf => true
  | ninf, ninf => true
  | _, _ => false

/-- 3-component vector of extended rationals. -/
structure FVec where
  x : FQ
  y : FQ
  z : FQ
deriving DecidableEq

/-- Component-wise addition. -/
def FVec.add (a b : FVec) : FVec := ⟨a.x.add b.x, a.y.add b.y, a.z.add b.z⟩

/-- Component-wise subtraction. -/
def FVec.sub (a b : FVec) : FVec := ⟨a.x.sub b.x, a.y.sub b.y, a.z.sub b.z⟩

/-- Scaling by an extended-rational scalar. -/
def FVec.smul (a : FVec) (c : FQ) : FVec := ⟨a.x.mul c, a.y.mul c, a.z.mul c⟩

/-- Component-wise division by a scalar. -/
def FVec.divc (a : FVec) (c : FQ) : FVec := ⟨a.x.div c, a.y.div c, a.z.div c⟩

/-- Dot product with the source's left-to-right summation order
x*bx + y*by + z*bz. -/
def FVec.dot (a b : FVec) : FQ :=
  ((a.x.mul b.x).add (a.y.mul b.y)).add (a.z.mul b.z)

/-- Cross product as in Vector::Cross. -/
def FVec.cross (a b : FVec) : FVec :=
  ⟨(a.y.mul b.z).sub (a.z.mul b.y),
   (a.z.mul b.x).sub (a.x.mul b.z),
   (a.x.mul b.y).sub (a.y.mul b.x)⟩

/-- Ray over extended rationals. -/
structure FRay where
  org : FVec
  dir : FVec
deriving DecidableEq

/-- Triangle over extended rationals: only the geometric fields read
by Triangle::Intersect (p0, p1, p2, normal). -/
structure FTri where
  p0 : FVec
  p1 : FVec
  p2 : FVec
  normal : FVec
deriving DecidableEq

/-- The Triangle constructor over extended rationals: p1 = p0 + a,
p2 = p0 + b, normal = (a x b) / len with len the IEEE value of
sqrt((a x b).(a x b)) supplied as a parameter (for a zero cross
product, len = 0 and the 0/0 components make the normal NaN, exactly
as the source's Normalized()). -/
def mkFTriW (p0 a b : FVec) (len : FQ) : FTri :=
  ⟨p0, p0.add a, p0.add b, (FVec.cross a b).divc len⟩

/-- eps as an extended rational. -/
def epsF : FQ := FQ.fin eps

/-- The supporting-plane parameter of Triangle::Intersect under IEEE
semantics: (p0 - O) . n / (D . n); division by a zero denominator
yields a signed infinity or NaN instead of 0. -/
def FTri.planeT (tr : FTri) (ray : FRay) : FQ :=
  ((tr.p0.sub ray.org).dot tr.normal).div (ray.dir.dot tr.normal)

/-- The 2x2 barycentric solve of Triangle::Intersect over extended
rationals on a projected axis pair. -/
def flamPair (p0u p0v p1u p1v p2u p2v qu qv : FQ) : FQ × FQ :=
  ((((p1v.sub p2v).mul (qu.sub p2u)).add ((p2u.sub p1u).mul (qv.sub p2v))).div
     (((p0u.sub p2u).mul (p1v.sub p2v)).sub ((p0v.sub p2v).mul (p1u.sub p2u))),
   (((p2v.sub p0v).mul (qu.sub p2u)).add ((p0u.sub p2u).mul (qv.sub p2v))).div
     (((p0u.sub p2u).mul (p1v.sub p2v)).sub ((p0v.sub p2v).mul (p1u.sub p2u))))

/-- The axis-pair selection of Triangle::Intersect over extended
rationals, with the source's == comparisons (false on NaN). -/
def FTri.lambdas (tr : FTri) (q : FVec) : FQ × FQ :=
  if tr.p0.z.feq tr.p2.z && tr.p1.z.feq tr.p2.z then
    flamPair tr.p0.x tr.p0.y tr.p1.x tr.p1.y tr.p2.x tr.p2.y q.x q.y
  else if tr.p0.x.feq tr.p2.x && tr.p1.x.feq tr.p2.x then
    flamPair tr.p0.y tr.p0.z tr.p1.y tr.p1.z tr.p2.y tr.p2.z q.y q.z
  else if tr.p0.y.feq tr.p2.y && tr.p1.y.feq tr.p2.y then
    flamPair tr.p0.x tr.p0.z tr.p1.x tr.p1.z tr.p2.x tr.p2.z q.x q.z
  else
    flamPair tr.p0.x tr.p0.y tr.p1.x tr.p1.y tr.p2.x tr.p2.y q.x q.y

/-- Triangle::Intersect under IEEE semantics: the t <= eps test (false
for +inf and NaN plane parameters), the barycentric solve at
q = O + D t, and the out-of-range comparisons (false on NaN), finally
returning t itself. -/
def FTri.Intersect (tr : FTri) (ray : FRay) : FQ :=
  let t := tr.planeT ray
  if t.fle epsF then FQ.fin 0
  else
    let q := ray.org.add (ray.dir.smul t)
    let lams := tr.lambdas q
    let lam2 := ((FQ.fin 1).sub lams.1).sub lams.2
    if lams.1.fgt (FQ.fin 1) || lams.1.flt (FQ.fin 0) ||
       lams.2.fgt (FQ.fin 1) || lams.2.flt (FQ.fin 0) ||
       lam2.fgt (FQ.fin 1) || lam2.flt (FQ.fin 0) then FQ.fin 0
    else t

/-- The registration test d > 0.0 && d < t of the scene-scan loops at
the initial sentinel t = 1e20 (the current t only ever decreases, so a
value failing d < 1e20 is never registered). -/
def registersF (d : FQ) : Bool := d.fgt (FQ.fin 0) && d.flt (FQ.fin bigT)

/-- The back-wall triangle over extended rationals (cross product
(0,0,8000), exact length 8000, unit normal (0,0,1)). -/
def fBackWall : FTri :=
  mkFTriW ⟨FQ.fin 0, FQ.fin 0, FQ.fin 0⟩ ⟨FQ.fin 100, FQ.fin 0, FQ.fin 0⟩
    ⟨FQ.fin 0, FQ.fin 80, FQ.fin 0⟩ (FQ.fin 8000)

/-- A ray parallel to the back wall with POSITIVE plane offset:
(p0 - O).n = 5, D.n = +0, so the IEEE plane parameter is +inf. -/
def fParRayPos : FRay :=
  ⟨⟨FQ.fin 5, FQ.fin 5, FQ.fin (-5)⟩, ⟨FQ.fin 1, FQ.fin 0, FQ.fin 0⟩⟩

/-- A ray parallel to the back wall with NEGATIVE plane offset:
(p0 - O).n = -5, D.n = +0, so the IEEE plane parameter is -inf and
the t <= eps test catches it. -/
def fParRayNeg : FRay :=
  ⟨⟨FQ.fin 5, FQ.fin 5, FQ.fin 5⟩, ⟨FQ.fin 1, FQ.fin 0, FQ.fin 0⟩⟩

/-- A regular ray hitting the back wall at distance 50. -/
def fFiniteRay : FRay :=
  ⟨⟨FQ.fin 50, FQ.fin 40, FQ.fin 50⟩, ⟨FQ.fin 0, FQ.fin 0, FQ.fin (-1)⟩⟩

/-- A zero-area triangle (collinear edges, zero cross product, length
witness 0): its normal is (0/0, 0/0, 0/0) = (NaN, NaN, NaN). -/
def fDegTri : FTri :=
  mkFTriW ⟨FQ.fin 0, FQ.fin 0, FQ.fin 0⟩ ⟨FQ.fin 1, FQ.fin 0, FQ.fin 0⟩
    ⟨FQ.fin 2, FQ.fin 0, FQ.fin 0⟩ (FQ.fin 0)

/-- A ray aimed at the degenerate triangle. -/
def fDegRay : FRay :=
  ⟨⟨FQ.fin 0, FQ.fin 0, FQ.fin (-5)⟩, ⟨FQ.fin 0, FQ.fin 0, FQ.fin 1⟩⟩

/-! ## General lemmas about the embedded operations -/

lemma Vec.dot_comm (a b : Vec) : a.dot b = b.dot a := by
  cases a; cases b; simp only [Vec.dot]; ring

/-- Quadratic expansion of the squared distance from B to a point of
the ray A + s u. -/
lemma Vec.quad_expand (A B u : Vec) (s : ℚ) :
    ((A.add (u.smul s)).sub B).dot ((A.add (u.smul s)).sub B) =
      s * s * (u.dot u) - 2 * s * (u.dot (B.sub A)) + (B.sub A).dot (B.sub A) := by
  cases A; cases B; cases u; simp only [Vec.add, Vec.sub, Vec.smul, Vec.dot]; ring

lemma clamp01_nonneg (v : ℚ) : 0 ≤ clamp01 v := by
  unfold clamp01; split_ifs with h1 h2
  · exact le_refl 0
  · exact zero_le_one
  · exact not_lt.mp h1

lemma clamp01_le_one (v : ℚ) : clamp01 v ≤ 1 := by
  unfold clamp01; split_ifs with h1 h2
  · exact zero_le_one
  · exact le_refl 1
  · exact not_lt.mp h2

lemma Vec.zero_add (v : Vec) : Vec.zero.add v = v := by
  cases v; simp only [Vec.add, Vec.zero, Vec.mk.injEq]
  exact ⟨by ring, by ring, by ring⟩

lemma Vec.add_zero (v : Vec) : v.add Vec.zero = v := by
  cases v; simp only [Vec.add, Vec.zero, Vec.mk.injEq]
  exact ⟨by ring, by ring, by ring⟩

lemma Vec.add_assoc (a b c : Vec) : (a.add b).add c = a.add (b.add c) := by
  cases a; cases b; cases c; simp only [Vec.add, Vec.mk.injEq]
  exact ⟨by ring, by ring, by ring⟩

lemma Vec.divc_add (a b : Vec) (c : ℚ) :
    (a.add b).divc c = (a.divc c).add (b.divc c) := by
  cases a; cases b; simp only [Vec.add, Vec.divc, Vec.mk.injEq]
  exact ⟨by ring, by ring, by ring⟩

lemma Vec.zero_divc (c : ℚ) : Vec.zero.divc c = Vec.zero := by
  simp only [Vec.zero, Vec.divc, Vec.mk.injEq]
  exact ⟨by ring, by ring, by ring⟩

lemma vsum_cons_shift (l : List Vec) (a : Vec) :
    l.foldl Vec.add a = a.add (vsum l) := by
  induction l generalizing a with
  | nil => simp only [List.foldl_nil, vsum, Vec.add_zero]
  | cons r l ih =>
      simp only [List.foldl_cons, vsum]
      rw [ih (a.add r), ih (Vec.zero.add r), Vec.zero_add, Vec.add_assoc]

lemma vsum_cons (r : Vec) (l : List Vec) : vsum (r :: l) = r.add (vsum l) := by
  unfold vsum
  simp only [List.foldl_cons]
  rw [vsum_cons_shift l (Vec.zero.add r), Vec.zero_add]
  rfl

lemma subpixelAccum_shift (l : List Vec) (a : Vec) :
    l.foldl (fun acc r => acc.add (r.divc (nbSamples : ℚ))) a =
      a.add ((vsum l).divc (nbSamples : ℚ)) := by
  induction l generalizing a with
  | nil => simp only [List.foldl_nil, vsum, Vec.zero_divc, Vec.add_zero]
  | cons r l ih =>
      simp only [List.foldl_cons]
      rw [ih, vsum_cons, Vec.divc_add, Vec.add_assoc]

/-- The sample loop of Render accumulates exactly the sample sum
divided by nbSamples. -/
lemma subpixelAccum_eq (samples : List Vec) :
    subpixelAccum samples = (vsum samples).divc (nbSamples : ℚ) := by
  unfold subpixelAccum
  rw [subpixelAccum_shift, Vec.zero_add]

/-- Triangle::Intersect returns 0 or a distance strictly beyond the
eps bias. -/
lemma Tri.intersect_zero_or_gt (tr : Tri) (ray : Ray) :
    tr.Intersect ray = 0 ∨ eps < tr.Intersect ray := by
  simp only [Tri.Intersect]
  split_ifs with h1 h2
  · exact Or.inl rfl
  · exact Or.inl rfl
  · exact Or.inr (not_le.mp h1)

/-- get commutes with map on lists. -/
lemma list_get_map {α β : Type} (f : α → β) (l : List α) (j : ℕ)
    (h1 : j < (l.map f).length) (h2 : j < l.length) :
    (l.map f).get ⟨j, h1⟩ = f (l.get ⟨j, h2⟩) := by
  induction l generalizing j with
  | nil => exact absurd h2 (Nat.not_lt_zero j)
  | cons a l ih =>
      cases j with
      | zero => rfl
      | succ j => exact ih j (by simpa using h1) (by simpa using h2)

/-- The scan never increases the current nearest distance. -/
lemma scanHits_fst_le (ds : List ℚ) (i : ℕ) (t : ℚ) (idx : ℕ) :
    (scanHits ds i t idx).1 ≤ t := by
  induction ds generalizing i t idx with
  | nil => exact le_refl t
  | cons d ds ih =>
      simp only [scanHits]
      split_ifs with h
      · exact le_trans (ih (i + 1) d i) (le_of_lt h.2)
      · exact ih (i + 1) t idx

/-- The scan result is a lower bound of every positive entry. -/
lemma scanHits_fst_min (ds : List ℚ) (i : ℕ) (t : ℚ) (idx : ℕ) :
    ∀ d ∈ ds, 0 < d → (scanHits ds i t idx).1 ≤ d := by
  induction ds generalizing i t idx with
  | nil => intro d hd; exact absurd hd (List.not_mem_nil d)
  | cons a ds ih =>
      intro d hd hdpos
      rcases List.mem_cons.mp hd with rfl | hd
      · simp only [scanHits]
        split_ifs with h
        · exact scanHits_fst_le ds (i + 1) d i
        · have ht : t ≤ d := by
            by_contra hc
            exact h ⟨hdpos, not_le.mp hc⟩
          exact le_trans (scanHits_fst_le ds (i + 1) t idx) ht
      · simp only [scanHits]
        split_ifs with h
        · exact ih (i + 1) a i d hd hdpos
        · exact ih (i + 1) t idx d hd hdpos

/-- Either the scan leaves the accumulator untouched, or it returns a
positive list entry below the initial t together with its index. -/
lemma scanHits_cases (ds : List ℚ) (i : ℕ) (t : ℚ) (idx : ℕ) :
    ((scanHits ds i t idx).1 = t ∧ (scanHits ds i t idx).2 = idx) ∨
    (∃ j, ∃ h : j < ds.length, ds.get ⟨j, h⟩ = (scanHits ds i t idx).1 ∧
      (scanHits ds i t idx).2 = i + j ∧ 0 < (scanHits ds i t idx).1 ∧
      (scanHits ds i t idx).1 < t) := by
  induction ds generalizing i t idx with
  | nil => exact Or.inl ⟨rfl, rfl⟩
  | cons a ds ih =>
      simp only [scanHits]
      split_ifs with h
      · rcases ih (i + 1) a i with ⟨h1, h2⟩ | ⟨j, hj, hget, hidx, hpos, hlt⟩
        · refine Or.inr ⟨0, Nat.succ_pos _, ?_, ?_, ?_, ?_⟩
          · exact h1.symm
          · rw [h2, Nat.add_zero]
          · rw [h1]; exact h.1
          · rw [h1]; exact h.2
        · refine Or.inr ⟨j + 1, Nat.succ_lt_succ hj, ?_, ?_, hpos, lt_trans hlt h.2⟩
          · exact hget
          · rw [hidx]; omega
      · rcases ih (i + 1) t idx with ⟨h1, h2⟩ | ⟨j, hj, hget, hidx, hpos, hlt⟩
        · exact Or.inl ⟨h1, h2⟩
        · refine Or.inr ⟨j + 1, Nat.succ_lt_succ hj, ?_, ?_, hpos, hlt⟩
          · exact hget
          · rw [hidx]; omega

/-- If some entry is positive and below the current nearest distance,
the scan strictly improves it. -/
lemma scanHits_progress (ds : List ℚ) (i : ℕ) (t : ℚ) (idx : ℕ) :
    (∃ d ∈ ds, 0 < d ∧ d < t) → (scanHits ds i t idx).1 < t := by
  induction ds generalizing i t idx with
  | nil => rintro ⟨d, hd, _⟩; exact absurd hd (List.not_mem_nil d)
  | cons a ds ih =>
      rintro ⟨d, hd, hdpos, hdlt⟩
      simp only [scanHits]
      split_ifs with h
      · exact lt_of_le_of_lt (scanHits_fst_le ds (i + 1) a i) h.2
      · rcases List.mem_cons.mp hd with rfl | hd
        · exact absurd ⟨hdpos, hdlt⟩ h
        · exact ih (i + 1) t idx ⟨d, hd, hdpos, hdlt⟩

/-! ## Claim theorems -/

/-- Claim C9: for a unit surface normal N, the specular outgoing
direction D - 2 (D.N) N of Radiance satisfies the reflection law
exactly: its normal component is the negated incident one and its
squared length equals that of D. -/
theorem spec_C9_mirror_law (D N : Vec) (h : N.dot N = 1) :
    (reflectDir D N).dot N = -(D.dot N) ∧
    (reflectDir D N).dot (reflectDir D N) = D.dot D := by
  obtain ⟨dx, dy, dz⟩ := D
  obtain ⟨nx, ny, nz⟩ := N
  simp only [reflectDir, Vec.dot, Vec.sub, Vec.smul] at h ⊢
  constructor
  · linear_combination (-2 * (nx * dx + ny * dy + nz * dz)) * h
  · linear_combination (4 * (nx * dx + ny * dy + nz * dz) ^ 2) * h

/-- Witness for C9 at D = (3,4,-5) and N = (0,0,1). -/
theorem spec_C9_witness :
    ((⟨0, 0, 1⟩ : Vec).dot ⟨0, 0, 1⟩ = 1) ∧
    ((reflectDir ⟨3, 4, -5⟩ ⟨0, 0, 1⟩).dot ⟨0, 0, 1⟩ = -((⟨3, 4, -5⟩ : Vec).dot ⟨0, 0, 1⟩) ∧
     (reflectDir ⟨3, 4, -5⟩ ⟨0, 0, 1⟩).dot (reflectDir ⟨3, 4, -5⟩ ⟨0, 0, 1⟩) =
       (⟨3, 4, -5⟩ : Vec).dot ⟨3, 4, -5⟩) :=
  ⟨by norm_num [Vec.dot], spec_C9_mirror_law ⟨3, 4, -5⟩ ⟨0, 0, 1⟩ (by norm_num [Vec.dot])⟩

/-- Claim C4 (amended): with nc = 1 and nt = 1.5 the Schlick base
reflectance R0 equals 0.04; the code's cosine term c is 1 - cos(theta),
so NORMAL incidence corresponds to c = 0 (for an entering ray,
ddn = -1 gives c = 1 + ddn = 0) where Re = R0 = 0.04, and GRAZING
incidence corresponds to c -> 1 where Re -> 1 (Re(1) = 1); on [0,1]
the reflectance stays between R0 and 1. -/
theorem spec_C4_schlick :
    R0 = 1/25 ∧ schlickRe 0 = R0 ∧ schlickRe 1 = 1 ∧ schlickCEnter (-1) = 0 ∧
    (∀ c : ℚ, 0 ≤ c → c ≤ 1 → R0 ≤ schlickRe c ∧ schlickRe c ≤ 1) := by
  refine ⟨by norm_num [R0, nc, nt], by norm_num [schlickRe], ?_, by norm_num [schlickCEnter], ?_⟩
  · norm_num [schlickRe, R0, nc, nt]
  intro c h0 h1
  have h2 : c * c ≤ 1 := by nlinarith
  have h3 : c * c * c ≤ 1 := by nlinarith
  have h5 : c * c * c * c * c ≤ 1 := by nlinarith
  have h6 : 0 ≤ c * c * c * c * c := by positivity
  unfold schlickRe R0 nc nt
  norm_num
  constructor
  · nlinarith
  · nlinarith

/-- Witness for C4 at c = 1/2. -/
theorem spec_C4_witness :
    ((0:ℚ) ≤ 1/2 ∧ (1/2:ℚ) ≤ 1) ∧ (R0 ≤ schlickRe (1/2) ∧ schlickRe (1/2) ≤ 1) :=
  ⟨by norm_num, spec_C4_schlick.2.2.2.2 (1/2) (by norm_num) (by norm_num)⟩

/-- Counterexample for C4 as stated: the claim places c = 1 at normal
incidence with Re = R0 = 0.04, but Re(1) = 1, not R0; and it has
Re -> 1 as c -> 0, but Re(0) = R0 = 0.04. -/
theorem spec_C4_counterexample :
    schlickRe 1 = 1 ∧ ¬ schlickRe 1 = R0 ∧ schlickRe 0 = 1/25 := by
  norm_num [schlickRe, R0, nc, nt]

/-- Claim C5: Sphere::Intersect returns 0 when the discriminant
b*b - (C-O).(C-O) + r*r is negative; otherwise, with sq the
non-negative square root of the discriminant, it returns the smaller
root b - sq when that exceeds eps, else the larger root b + sq when
that exceeds eps, else 0 - for every sphere and ray. -/
theorem spec_C5_sphere_intersect (s : Sphere) (ray : Ray) (sq : ℚ) :
    (s.radicantOf ray < 0 → s.IntersectW ray sq = 0) ∧
    (sq * sq = s.radicantOf ray → 0 ≤ sq →
      s.IntersectW ray sq =
        if s.bOf ray - sq > eps then s.bOf ray - sq
        else if s.bOf ray + sq > eps then s.bOf ray + sq
        else 0) := by
  constructor
  · intro h
    simp only [Sphere.IntersectW, if_pos h]
  · intro hsq _
    have hnn : ¬ s.radicantOf ray < 0 := by
      rw [← hsq]; exact not_lt.mpr (mul_self_nonneg sq)
    simp only [Sphere.IntersectW, if_neg hnn]

/-- Witness for C5: the demo ray through the demo sphere center has
discriminant 1, sqrt 1, and hits at the smaller root 2. -/
theorem spec_C5_witness :
    ((1:ℚ) * 1 = demoSphere.radicantOf demoRay ∧ (0:ℚ) ≤ 1) ∧
    demoSphere.IntersectW demoRay 1 = 2 := by
  have hrad : (1:ℚ) * 1 = demoSphere.radicantOf demoRay := by
    norm_num [Sphere.radicantOf, demoSphere, demoRay, Vec.dot, Vec.sub]
  refine ⟨⟨hrad, by norm_num⟩, ?_⟩
  have h := (spec_C5_sphere_intersect demoSphere demoRay 1).2 hrad (by norm_num)
  rw [h]
  norm_num [Sphere.bOf, demoSphere, demoRay, Vec.dot, Vec.sub, eps]

/-- Claim C2 (amended): in the refractive branch (no total internal
reflection), both the reflected and the refracted recursive results
are evaluated and summed with weights Re and Tr only for the first TWO
bounces of a path (incremented recursion depth < 3); from the third
bounce on, one branch is selected with probability P = 0.25 + 0.5 Re
and its contribution rescaled by Re/P respectively Tr/(1-P). -/
theorem spec_C2_refractive_split (depth : ℕ) (rnd re : ℚ)
    (emission col radRefl radRefr : Vec) :
    (depth < refrSplitDepth →
      refrCombine depth rnd re emission col radRefl radRefr =
        emission.add (col.mult ((radRefl.smul re).add (radRefr.smul (1 - re))))) ∧
    (refrSplitDepth ≤ depth →
      (rnd < 1/4 + 1/2 * re →
        refrCombine depth rnd re emission col radRefl radRefr =
          emission.add (col.mult (radRefl.smul (re / (1/4 + 1/2 * re))))) ∧
      (¬ rnd < 1/4 + 1/2 * re →
        refrCombine depth rnd re emission col radRefl radRefr =
          emission.add (col.mult (radRefr.smul ((1 - re) / (1 - (1/4 + 1/2 * re))))))) := by
  constructor
  · intro h
    simp only [refrCombine, if_pos h]
  · intro h
    have h3 : ¬ depth < refrSplitDepth := not_lt.mpr h
    constructor
    · intro hr
      simp only [refrCombine, if_neg h3, if_pos hr]
    · intro hr
      simp only [refrCombine, if_neg h3, if_neg hr]

/-- Witness for C2 at depth 1 (a first-two bounce). -/
theorem spec_C2_witness :
    (1 < refrSplitDepth) ∧
    refrCombine 1 (1/2) 0 Vec.zero ⟨1, 1, 1⟩ Vec.zero ⟨1, 1, 1⟩ =
      Vec.zero.add ((⟨1, 1, 1⟩ : Vec).mult
        ((Vec.zero.smul 0).add ((⟨1, 1, 1⟩ : Vec).smul (1 - 0)))) :=
  ⟨by decide,
   (spec_C2_refractive_split 1 (1/2) 0 Vec.zero ⟨1, 1, 1⟩ Vec.zero ⟨1, 1, 1⟩).1 (by decide)⟩

/-- Counterexample for C2 as stated: at the THIRD bounce of a path
(incremented depth 3) the code already Russian-roulettes.  With
Re = 0 and rnd = 1/2 >= P = 1/4 it returns the refracted branch
rescaled by Tr/(1-P) = 4/3, not the claimed both-branch sum, which
here would be (1,1,1). -/
theorem spec_C2_counterexample :
    refrCombine 3 (1/2) 0 Vec.zero ⟨1, 1, 1⟩ Vec.zero ⟨1, 1, 1⟩ = ⟨4/3, 4/3, 4/3⟩ ∧
    Vec.zero.add ((⟨1, 1, 1⟩ : Vec).mult
        ((Vec.zero.smul 0).add ((⟨1, 1, 1⟩ : Vec).smul (1 - 0)))) = ⟨1, 1, 1⟩ ∧
    (⟨4/3, 4/3, 4/3⟩ : Vec) ≠ ⟨1, 1, 1⟩ := by
  refine ⟨?_, ?_, ?_⟩ <;>
    norm_num [refrCombine, refrSplitDepth, Vec.add, Vec.mult, Vec.smul, Vec.zero,
      Vec.mk.injEq]

/-- Claim C3 (amended): the normRand draws lie in the CLOSED interval
[0,1] (rand()/RAND_MAX attains 1); the Russian-roulette test of
Radiance runs exactly when the incremented depth exceeds maxDepth = 5
or the maximum albedo channel p is zero, in which case the path
continues with the albedo rescaled by 1/p when the draw is < p and
otherwise Radiance returns emission * E with no recursive call; when
depth <= 5 and p > 0 no test occurs and the albedo flows on
unchanged whatever the draw. -/
theorem spec_C3_roulette (depth : ℕ) (albedo emission : Vec) (E rnd : ℚ) (r : ℕ)
    (hr : r ≤ RAND_MAX) :
    (0 ≤ normRandM r ∧ normRandM r ≤ 1) ∧
    ((depth > maxDepth ∨ albedo.maxc = 0) →
      rouletteStep depth albedo emission E rnd =
        if rnd < albedo.maxc then RROut.next (albedo.smul (1 / albedo.maxc))
        else RROut.stop (emission.smul E)) ∧
    (depth ≤ maxDepth → 0 < albedo.maxc →
      rouletteStep depth albedo emission E rnd = RROut.next albedo) := by
  refine ⟨⟨?_, ?_⟩, ?_, ?_⟩
  · unfold normRandM
    positivity
  · unfold normRandM
    rw [div_le_one (by norm_num [RAND_MAX])]
    exact_mod_cast hr
  · intro h
    simp only [rouletteStep, if_pos h]
  · intro h1 h2
    have hno : ¬ (depth > maxDepth ∨ albedo.maxc = 0) := by
      simp only [not_or]
      exact ⟨not_lt.mpr h1, ne_of_gt h2⟩
    simp only [rouletteStep, if_neg hno]

/-- Witness for C3: depth 2 with albedo (3/4,3/4,3/4) skips the
test. -/
theorem spec_C3_witness :
    (100 ≤ RAND_MAX ∧ 2 ≤ maxDepth ∧ 0 < (⟨3/4, 3/4, 3/4⟩ : Vec).maxc) ∧
    rouletteStep 2 ⟨3/4, 3/4, 3/4⟩ ⟨0, 0, 0⟩ 1 (1/2) = RROut.next ⟨3/4, 3/4, 3/4⟩ :=
  ⟨by refine ⟨by decide, by decide, ?_⟩; norm_num [Vec.maxc],
   (spec_C3_roulette 2 ⟨3/4, 3/4, 3/4⟩ ⟨0, 0, 0⟩ 1 (1/2) 100 (by decide)).2.2
     (by decide) (by norm_num [Vec.maxc])⟩

/-- Counterexample for C3 as stated: the claim puts the drawn number
in [0,1), but normRand = rand()/RAND_MAX attains exactly 1 at
rand() = RAND_MAX; at that draw a path with p = 1 (the scene's green
front-wall color (0,1,0)) is terminated even though a draw from [0,1)
would always continue it. -/
theorem spec_C3_counterexample :
    normRandM RAND_MAX = 1 ∧ ¬ normRandM RAND_MAX < 1 ∧
    rouletteStep 6 ⟨0, 1, 0⟩ ⟨5, 5, 5⟩ 1 1 = RROut.stop ((⟨5, 5, 5⟩ : Vec).smul 1) := by
  refine ⟨?_, ?_, ?_⟩
  case refine_3 =>
    norm_num [rouletteStep, maxDepth, Vec.maxc]
  · unfold normRandM
    norm_num [RAND_MAX]
  · unfold normRandM
    norm_num [RAND_MAX]

/-- Claim C10: the Triangle constructor hard-codes the DIFF material,
every triangle of the hard-coded scene is DIFF, and the material
dispatch of Radiance sends DIFF to the diffuse branch, so in triangle
mode the specular and refractive branches (including the
total-internal-reflection path that indexes spheres.at(id)) are
unreachable. -/
theorem spec_C10_triangles_diffuse :
    (∀ p0 a b emi col : Vec, ∀ len : ℚ, (mkTriangleW p0 a b emi col len).refl = Refl.DIFF) ∧
    sceneTriangles.all (fun tr => decide (tr.refl = Refl.DIFF)) = true ∧
    (∀ p0 a b emi col : Vec, ∀ len : ℚ,
      materialBranch (mkTriangleW p0 a b emi col len).refl = MatBranch.diffuse) ∧
    MatBranch.diffuse ≠ MatBranch.specular ∧ MatBranch.diffuse ≠ MatBranch.refractive :=
  ⟨fun _ _ _ _ _ _ => rfl, by decide, fun _ _ _ _ _ _ => rfl, by decide, by decide⟩

/-- Claim C7 (amended): under IEEE double semantics Triangle::Intersect
raises no error on degenerate inputs, but the no-intersection result is
not always 0.0: a plane parameter passing the t <= eps test (including
-inf from a parallel ray with non-positive plane offset) returns 0; a
parallel ray with POSITIVE plane offset gets plane parameter +inf and
the function returns +inf, and a zero-area triangle has a NaN normal
and the function returns NaN - in both cases every barycentric
out-of-range comparison is false and the returned value is discarded
by the scene scan's d > 0 && d < t registration test, so the ray is
treated as a miss rather than an error; and a FINITE positive return
equals the plane distance, exceeds eps, and each barycentric
coordinate fails both out-of-range comparisons, so each finite
barycentric coordinate lies in [0,1]. -/
theorem spec_C7_triangle_robust :
    (∀ (tr : FTri) (ray : FRay), (tr.planeT ray).fle epsF = true →
      tr.Intersect ray = FQ.fin 0) ∧
    (FTri.planeT fBackWall fParRayPos = FQ.pinf ∧
     FTri.Intersect fBackWall fParRayPos = FQ.pinf ∧
     registersF FQ.pinf = false) ∧
    (fDegTri.normal = ⟨FQ.nan, FQ.nan, FQ.nan⟩ ∧
     FTri.Intersect fDegTri fDegRay = FQ.nan ∧
     registersF FQ.nan = false) ∧
    (∀ (tr : FTri) (ray : FRay) (t : ℚ),
      tr.Intersect ray = FQ.fin t → 0 < t →
      tr.planeT ray = FQ.fin t ∧ eps < t ∧
      (tr.lambdas (ray.org.add (ray.dir.smul (tr.planeT ray)))).1.fgt (FQ.fin 1) = false ∧
      (tr.lambdas (ray.org.add (ray.dir.smul (tr.planeT ray)))).1.flt (FQ.fin 0) = false ∧
      (tr.lambdas (ray.org.add (ray.dir.smul (tr.planeT ray)))).2.fgt (FQ.fin 1) = false ∧
      (tr.lambdas (ray.org.add (ray.dir.smul (tr.planeT ray)))).2.flt (FQ.fin 0) = false ∧
      (((FQ.fin 1).sub
          (tr.lambdas (ray.org.add (ray.dir.smul (tr.planeT ray)))).1).sub
          (tr.lambdas (ray.org.add (ray.dir.smul (tr.planeT ray)))).2).fgt
        (FQ.fin 1) = false ∧
      (((FQ.fin 1).sub
          (tr.lambdas (ray.org.add (ray.dir.smul (tr.planeT ray)))).1).sub
          (tr.lambdas (ray.org.add (ray.dir.smul (tr.planeT ray)))).2).flt
        (FQ.fin 0) = false ∧
      (∀ q1 : ℚ, (tr.lambdas (ray.org.add (ray.dir.smul (tr.planeT ray)))).1 = FQ.fin q1 →
        0 ≤ q1 ∧ q1 ≤ 1) ∧
      (∀ q2 : ℚ, (tr.lambdas (ray.org.add (ray.dir.smul (tr.planeT ray)))).2 = FQ.fin q2 →
        0 ≤ q2 ∧ q2 ≤ 1)) := by
  refine ⟨?_, ?_, ?_, ?_⟩
  · intro tr ray h
    simp only [FTri.Intersect, if_pos h]
  · refine ⟨?_, ?_, ?_⟩ <;>
      norm_num [FTri.Intersect, FTri.planeT, FTri.lambdas, flamPair, mkFTriW,
        FVec.dot, FVec.cross, FVec.sub, FVec.add, FVec.smul, FVec.divc,
        FQ.add, FQ.sub, FQ.neg, FQ.mul, FQ.div, FQ.fle, FQ.flt, FQ.fgt, FQ.feq,
        registersF, epsF, eps, bigT, fBackWall, fParRayPos]
  · refine ⟨?_, ?_, ?_⟩ <;>
      norm_num [FTri.Intersect, FTri.planeT, FTri.lambdas, flamPair, mkFTriW,
        FVec.dot, FVec.cross, FVec.sub, FVec.add, FVec.smul, FVec.divc,
        FQ.add, FQ.sub, FQ.neg, FQ.mul, FQ.div, FQ.fle, FQ.flt, FQ.fgt, FQ.feq,
        registersF, epsF, eps, bigT, fDegTri, fDegRay]
  · intro tr ray t hres ht
    simp only [FTri.Intersect] at hres
    split_ifs at hres with h1 h2
    · injection hres with h0
      rw [← h0] at ht
      exact absurd ht (lt_irrefl 0)
    · injection hres with h0
      rw [← h0] at ht
      exact absurd ht (lt_irrefl 0)
    · have heps : eps < t := by
        rw [hres] at h1
        simp only [FQ.fle, epsF, decide_eq_true_eq] at h1
        exact not_le.mp h1
      simp only [Bool.or_eq_true, not_or, Bool.not_eq_true] at h2
      obtain ⟨⟨⟨⟨⟨g1, g2⟩, g3⟩, g4⟩, g5⟩, g6⟩ := h2
      refine ⟨hres, heps, g1, g2, g3, g4, g5, g6, ?_, ?_⟩
      · intro q1 hq
        rw [hq] at g1 g2
        simp only [FQ.fgt, FQ.flt, decide_eq_false_iff_not] at g1 g2
        exact ⟨not_lt.mp g2, not_lt.mp g1⟩
      · intro q2 hq
        rw [hq] at g3 g4
        simp only [FQ.fgt, FQ.flt, decide_eq_false_iff_not] at g3 g4
        exact ⟨not_lt.mp g4, not_lt.mp g3⟩

/-- Witness for C7: a parallel ray with negative offset is caught by
the t <= eps test and returns 0, and the regular back-wall hit at
distance 50 exercises the finite-return conjunct. -/
theorem spec_C7_witness :
    ((FTri.planeT fBackWall fParRayNeg).fle epsF = true ∧
     FTri.Intersect fBackWall fParRayNeg = FQ.fin 0) ∧
    (FTri.Intersect fBackWall fFiniteRay = FQ.fin 50 ∧ (0:ℚ) < 50 ∧
     FTri.planeT fBackWall fFiniteRay = FQ.fin 50 ∧ eps < 50) := by
  have h1 : (FTri.planeT fBackWall fParRayNeg).fle epsF = true := by
    norm_num [FTri.planeT, mkFTriW, FVec.dot, FVec.cross, FVec.sub, FVec.add,
      FVec.divc, FQ.add, FQ.sub, FQ.neg, FQ.mul, FQ.div, FQ.fle, epsF, eps,
      fBackWall, fParRayNeg]
  have h2 : FTri.Intersect fBackWall fFiniteRay = FQ.fin 50 := by
    norm_num [FTri.Intersect, FTri.planeT, FTri.lambdas, flamPair, mkFTriW,
      FVec.dot, FVec.cross, FVec.sub, FVec.add, FVec.smul, FVec.divc,
      FQ.add, FQ.sub, FQ.neg, FQ.mul, FQ.div, FQ.fle, FQ.flt, FQ.fgt, FQ.feq,
      epsF, eps, fBackWall, fFiniteRay]
  refine ⟨⟨h1, spec_C7_triangle_robust.1 fBackWall fParRayNeg h1⟩, h2, by norm_num,
    ?_, ?_⟩
  · exact (spec_C7_triangle_robust.2.2.2 fBackWall fFiniteRay 50 h2 (by norm_num)).1
  · exact (spec_C7_triangle_robust.2.2.2 fBackWall fFiniteRay 50 h2 (by norm_num)).2.1

/-- Counterexample for C7 as stated: under IEEE double semantics a
ray parallel to the back wall with positive plane offset makes
Triangle::Intersect return +inf, not the claimed 0.0 (the plane
division is 5/+0 = +inf, which passes the t <= eps test, and every
NaN barycentric comparison is false), and a zero-area triangle (NaN
normal from the 0/0 normalization) makes it return NaN; +inf is also
a positive return whose barycentric coordinates are NaN, not values
in [0,1].  Only the caller's d > 0 && d < 1e20 test discards these
values. -/
theorem spec_C7_counterexample :
    FTri.Intersect fBackWall fParRayPos = FQ.pinf ∧
    FQ.pinf ≠ FQ.fin 0 ∧
    FTri.Intersect fDegTri fDegRay = FQ.nan ∧
    FQ.nan ≠ FQ.fin 0 := by
  refine ⟨?_, fun h => FQ.noConfusion h, ?_, fun h => FQ.noConfusion h⟩
  · norm_num [FTri.Intersect, FTri.planeT, FTri.lambdas, flamPair, mkFTriW,
      FVec.dot, FVec.cross, FVec.sub, FVec.add, FVec.smul, FVec.divc,
      FQ.add, FQ.sub, FQ.neg, FQ.mul, FQ.div, FQ.fle, FQ.flt, FQ.fgt, FQ.feq,
      epsF, eps, fBackWall, fParRayPos]
  · norm_num [FTri.Intersect, FTri.planeT, FTri.lambdas, flamPair, mkFTriW,
      FVec.dot, FVec.cross, FVec.sub, FVec.add, FVec.smul, FVec.divc,
      FQ.add, FQ.sub, FQ.neg, FQ.mul, FQ.div, FQ.fle, FQ.flt, FQ.fgt, FQ.feq,
      epsF, eps, fDegTri, fDegRay]

/-- Claim C8: for every pixel the render driver computes each of the
four subpixel quadrants as the average of the nbSamples independent
Radiance evaluations (each sample is divided by nbSamples and
accumulated, so the accumulator ends at the sample sum over the sample
count), clamps each channel of that per-subpixel average to [0,1],
scales the clamped value by 1/4, and sums the four quadrant
contributions into the pixel color initialised with black.  The
Radiance results enter as the four sample lists. -/
theorem spec_C8_render_driver (s00 s01 s10 s11 : List Vec)
    (h00 : s00.length = nbSamples) (h01 : s01.length = nbSamples)
    (h10 : s10.length = nbSamples) (h11 : s11.length = nbSamples) :
    (pixelColor s00 s01 s10 s11 =
      (((((vsum s00).divc (s00.length : ℚ)).clamp.smul (1/4)).add
          (((vsum s01).divc (s01.length : ℚ)).clamp.smul (1/4))).add
         (((vsum s10).divc (s10.length : ℚ)).clamp.smul (1/4))).add
        (((vsum s11).divc (s11.length : ℚ)).clamp.smul (1/4))) ∧
    (∀ v : Vec, 0 ≤ v.clamp.x ∧ v.clamp.x ≤ 1 ∧ 0 ≤ v.clamp.y ∧ v.clamp.y ≤ 1 ∧
      0 ≤ v.clamp.z ∧ v.clamp.z ≤ 1) := by
  constructor
  · rw [h00, h01, h10, h11]
    unfold pixelColor subpixelContribution
    rw [subpixelAccum_eq, subpixelAccum_eq, subpixelAccum_eq, subpixelAccum_eq,
      Vec.zero_add]
  · intro v
    exact ⟨clamp01_nonneg _, clamp01_le_one _, clamp01_nonneg _, clamp01_le_one _,
      clamp01_nonneg _, clamp01_le_one _⟩

/-- Witness for C8 on four copies of a concrete 50-sample list. -/
theorem spec_C8_witness :
    (demoSamples.length = nbSamples) ∧
    ((pixelColor demoSamples demoSamples demoSamples demoSamples =
      (((((vsum demoSamples).divc (demoSamples.length : ℚ)).clamp.smul (1/4)).add
          (((vsum demoSamples).divc (demoSamples.length : ℚ)).clamp.smul (1/4))).add
         (((vsum demoSamples).divc (demoSamples.length : ℚ)).clamp.smul (1/4))).add
        (((vsum demoSamples).divc (demoSamples.length : ℚ)).clamp.smul (1/4))) ∧
     (∀ v : Vec, 0 ≤ v.clamp.x ∧ v.clamp.x ≤ 1 ∧ 0 ≤ v.clamp.y ∧ v.clamp.y ≤ 1 ∧
       0 ≤ v.clamp.z ∧ v.clamp.z ≤ 1)) := by
  have hlen : demoSamples.length = nbSamples := by
    simp [demoSamples, nbSamples]
  exact ⟨hlen, spec_C8_render_driver demoSamples demoSamples demoSamples demoSamples
    hlen hlen hlen hlen⟩

/-- Claim C6 (amended): provided every per-primitive intersection
result lies below the 1e20 sentinel that initialises the nearest
distance, the triangle scene query reports a hit exactly when some
per-primitive Intersect result is positive, and on a hit it returns an
index and distance such that the distance is that primitive's
Intersect result, exceeds eps, and is minimal among all positive
results.  (Without the sentinel bound this fails: a positive result at
or beyond 1e20 is never registered by the scan.) -/
theorem spec_C6_scene_query (tris : List Tri) (ray : Ray)
    (hbig : ∀ d ∈ tris.map (fun tr => tr.Intersect ray), d < bigT) :
    ((IntersectTriangles tris ray).1 = true ↔
      ∃ d ∈ tris.map (fun tr => tr.Intersect ray), 0 < d) ∧
    ((IntersectTriangles tris ray).1 = true →
      eps < (IntersectTriangles tris ray).2.1 ∧
      (∃ h : (IntersectTriangles tris ray).2.2 < tris.length,
        (tris.get ⟨(IntersectTriangles tris ray).2.2, h⟩).Intersect ray =
          (IntersectTriangles tris ray).2.1) ∧
      (∀ d ∈ tris.map (fun tr => tr.Intersect ray), 0 < d →
        (IntersectTriangles tris ray).2.1 ≤ d)) := by
  set ds := tris.map (fun tr => tr.Intersect ray) with hds
  have e1 : (IntersectTriangles tris ray).1 = decide ((scanHits ds 0 bigT 0).1 < bigT) := rfl
  have e2 : (IntersectTriangles tris ray).2.1 = (scanHits ds 0 bigT 0).1 := rfl
  have e3 : (IntersectTriangles tris ray).2.2 = (scanHits ds 0 bigT 0).2 := rfl
  rw [e1, e2, e3]
  constructor
  · constructor
    · intro h
      have hlt : (scanHits ds 0 bigT 0).1 < bigT := of_decide_eq_true h
      rcases scanHits_cases ds 0 bigT 0 with ⟨h1, _⟩ | ⟨j, hj, hget, _, hpos, _⟩
      · rw [h1] at hlt
        exact absurd hlt (lt_irrefl _)
      · exact ⟨(scanHits ds 0 bigT 0).1, hget ▸ List.get_mem ds j hj, hpos⟩
    · rintro ⟨d, hd, hdpos⟩
      exact decide_eq_true (scanHits_progress ds 0 bigT 0 ⟨d, hd, hdpos, hbig d hd⟩)
  · intro h
    have hlt : (scanHits ds 0 bigT 0).1 < bigT := of_decide_eq_true h
    rcases scanHits_cases ds 0 bigT 0 with ⟨h1, _⟩ | ⟨j, hj, hget, hidx, hpos, _⟩
    · rw [h1] at hlt
      exact absurd hlt (lt_irrefl _)
    · have hmem : (scanHits ds 0 bigT 0).1 ∈ ds := hget ▸ List.get_mem ds j hj
      obtain ⟨tr, htr, heq⟩ := List.mem_map.mp hmem
      have hj2 : j < tris.length := by
        have := hj
        rw [hds, List.length_map] at this
        exact this
      refine ⟨?_, ?_, ?_⟩
      · rcases Tri.intersect_zero_or_gt tr ray with hz | hgt
        · rw [heq] at hz
          rw [hz] at hpos
          exact absurd hpos (lt_irrefl 0)
        · exact heq ▸ hgt
      · have hidx2 : (scanHits ds 0 bigT 0).2 = j := by omega
        rw [hidx2]
        refine ⟨hj2, ?_⟩
        have hj3 : j < (tris.map (fun tr => tr.Intersect ray)).length := by
          rw [List.length_map]
          exact hj2
        have hgm : ds.get ⟨j, hj⟩ = (tris.get ⟨j, hj2⟩).Intersect ray :=
          list_get_map (fun tr => tr.Intersect ray) tris j hj3 hj2
        rw [← hgm]
        exact hget
      · intro d hd hdpos
        exact scanHits_fst_min ds 0 bigT 0 d hd hdpos

/-- Witness for C6: a ray inside the box; every scene intersection
distance is far below the sentinel and the back wall is hit at 50. -/
theorem spec_C6_witness :
    (∀ d ∈ sceneTriangles.map (fun tr => tr.Intersect nearRay), d < bigT) ∧
    (((IntersectTriangles sceneTriangles nearRay).1 = true ↔
       ∃ d ∈ sceneTriangles.map (fun tr => tr.Intersect nearRay), 0 < d) ∧
     ((IntersectTriangles sceneTriangles nearRay).1 = true →
       eps < (IntersectTriangles sceneTriangles nearRay).2.1 ∧
       (∃ h : (IntersectTriangles sceneTriangles nearRay).2.2 < sceneTriangles.length,
         (sceneTriangles.get ⟨(IntersectTriangles sceneTriangles nearRay).2.2, h⟩).Intersect
             nearRay = (IntersectTriangles sceneTriangles nearRay).2.1) ∧
       (∀ d ∈ sceneTriangles.map (fun tr => tr.Intersect nearRay), 0 < d →
         (IntersectTriangles sceneTriangles nearRay).2.1 ≤ d))) := by
  have hbig : ∀ d ∈ sceneTriangles.map (fun tr => tr.Intersect nearRay), d < bigT := by
    norm_num [sceneTriangles, nearRay, bigT, Tri.Intersect, Tri.planeT, Tri.lambdas,
      lamPair, mkTriangleW, Vec.normalizedW, Vec.divc, Vec.cross, Vec.add, Vec.sub,
      Vec.smul, Vec.dot, Vec.zero, eps]
  exact ⟨hbig, spec_C6_scene_query sceneTriangles nearRay hbig⟩

/-- Counterexample for C6 as stated: for the far ray the back wall is
struck at distance 2e20 > eps, yet the scene query reports no hit,
because the result is not below the 1e20 sentinel. -/
theorem spec_C6_counterexample :
    (IntersectTriangles sceneTriangles farRay).1 = false ∧
    ∃ d ∈ sceneTriangles.map (fun tr => tr.Intersect farRay), eps < d := by
  constructor <;>
    norm_num [IntersectTriangles, sceneTriangles, scanHits, bigT, farRay,
      Tri.Intersect, Tri.planeT, Tri.lambdas, lamPair, mkTriangleW, Vec.normalizedW,
      Vec.divc, Vec.cross, Vec.add, Vec.sub, Vec.smul, Vec.dot, Vec.zero, eps]

/-- Claim C1 (amended): in the diffuse branch, the direct-lighting
term albedo (x) lightEmission * (l.nl) * Omega * (1/pi) with
Omega = 2 pi (1 - cos_a_max) is added if and only if the shadow ray
Ray(hitpoint, l) intersects the LIGHT-SOURCE SPHERE beyond the eps
bias - IntersectLightSource restricts the test to the light source, so
occlusion by other primitives is NOT tested and an occluded shadow ray
still contributes.  The gate is equivalent to the existence of a ray
parameter s > eps at squared distance radius^2 from the light
center. -/
theorem spec_C1_direct_light (hitpoint l nl albedo : Vec) (cosAMax piV sq : ℚ)
    (hl : l.dot l = 1) (hsq : sq * sq = LightSource.radicantOf ⟨hitpoint, l⟩)
    (_hsq0 : 0 ≤ sq) :
    (directLightW hitpoint l nl albedo cosAMax piV sq =
      if IntersectLightSourceW ⟨hitpoint, l⟩ sq then
        (albedo.mult ((LightSource.emission.smul (l.dot nl)).smul
            (2 * piV * (1 - cosAMax)))).smul (1 / piV)
      else Vec.zero) ∧
    (IntersectLightSourceW ⟨hitpoint, l⟩ sq = true ↔
      ∃ s : ℚ, eps < s ∧
        ((hitpoint.add (l.smul s)).sub LightSource.center).dot
            ((hitpoint.add (l.smul s)).sub LightSource.center) =
          LightSource.radius * LightSource.radius) := by
  have heps : (0:ℚ) < eps := by norm_num [eps]
  constructor
  · rfl
  · have hrad : ¬ LightSource.radicantOf ⟨hitpoint, l⟩ < 0 := by
      rw [← hsq]
      exact not_lt.mpr (mul_self_nonneg sq)
    simp only [IntersectLightSourceW, Sphere.IntersectW, if_neg hrad,
      decide_eq_true_eq]
    set b := LightSource.bOf ⟨hitpoint, l⟩ with hbdef
    have hb : b = l.dot (LightSource.center.sub hitpoint) := by
      rw [hbdef]
      unfold Sphere.bOf
      exact Vec.dot_comm _ _
    have hsq2 : sq * sq = b * b -
        (LightSource.center.sub hitpoint).dot (LightSource.center.sub hitpoint) +
        LightSource.radius * LightSource.radius := hsq
    have key : ∀ s : ℚ,
        (((hitpoint.add (l.smul s)).sub LightSource.center).dot
            ((hitpoint.add (l.smul s)).sub LightSource.center) =
          LightSource.radius * LightSource.radius) ↔
        (s = b - sq ∨ s = b + sq) := by
      intro s
      rw [Vec.quad_expand hitpoint LightSource.center l s, hl, ← hb]
      constructor
      · intro hroot
        have hfact : (s - (b - sq)) * (s - (b + sq)) = 0 := by
          linear_combination hroot - hsq2
        rcases mul_eq_zero.mp hfact with h1 | h1
        · exact Or.inl (sub_eq_zero.mp h1)
        · exact Or.inr (sub_eq_zero.mp h1)
      · rintro (rfl | rfl)
        · linear_combination hsq2
        · linear_combination hsq2
    constructor
    · intro hx
      by_cases h1 : b - sq > eps
      · exact ⟨b - sq, h1, (key _).mpr (Or.inl rfl)⟩
      · by_cases h2 : b + sq > eps
        · exact ⟨b + sq, h2, (key _).mpr (Or.inr rfl)⟩
        · rw [if_neg h1, if_neg h2] at hx
          exact absurd hx (lt_irrefl 0)
    · rintro ⟨s, hs, hroot⟩
      rcases (key s).mp hroot with rfl | rfl
      · rw [if_pos hs]
        exact lt_trans heps hs
      · by_cases h1 : b - sq > eps
        · rw [if_pos h1]
          exact lt_trans heps h1
        · rw [if_neg h1, if_pos hs]
          exact lt_trans heps hs

/-- Witness for C1: shadow ray from ten units below the light center,
discriminant 9/4 with square root 3/2. -/
theorem spec_C1_witness :
    (lW.dot lW = 1 ∧ (3/2 : ℚ) * (3/2) = LightSource.radicantOf ⟨hpW, lW⟩ ∧
      (0:ℚ) ≤ 3/2) ∧
    (IntersectLightSourceW ⟨hpW, lW⟩ (3/2) = true ↔
      ∃ s : ℚ, eps < s ∧
        ((hpW.add (lW.smul s)).sub LightSource.center).dot
            ((hpW.add (lW.smul s)).sub LightSource.center) =
          LightSource.radius * LightSource.radius) := by
  have h1 : lW.dot lW = 1 := by norm_num [lW, Vec.dot]
  have h2 : (3/2 : ℚ) * (3/2) = LightSource.radicantOf ⟨hpW, lW⟩ := by
    norm_num [LightSource, Sphere.radicantOf, hpW, lW, Vec.dot, Vec.sub]
  exact ⟨⟨h1, h2, by norm_num⟩,
    (spec_C1_direct_light hpW lW Vec.zero Vec.zero 0 3 (3/2) h1 h2 (by norm_num)).2⟩

/-- Counterexample for C1 as stated: the shadow ray from the floor
point hpCE toward the light center passes through the cuboid (two of
its faces intersect the ray well before the light-hit distance
5329/64), so it is occluded by another primitive; yet
IntersectLightSource succeeds and the nonzero direct term is added.
Under the claim the direct term would have to be zero here. -/
theorem spec_C1_counterexample :
    IntersectLightSourceW ⟨hpCE, lCE⟩ (3/2) = true ∧
    occludedBefore sceneTriangles ⟨hpCE, lCE⟩
      (LightSource.IntersectW ⟨hpCE, lCE⟩ (3/2)) = true ∧
    directLightW hpCE lCE ⟨0, 1, 0⟩ ⟨3/4, 3/4, 3/4⟩ 0 3 (3/2) ≠ Vec.zero := by
  norm_num [IntersectLightSourceW, occludedBefore, directLightW, LightSource,
    Sphere.IntersectW, Sphere.radicantOf, Sphere.bOf, sceneTriangles, hpCE, lCE,
    Tri.Intersect, Tri.planeT, Tri.lambdas, lamPair, mkTriangleW, Vec.normalizedW,
    Vec.divc, Vec.cross, Vec.add, Vec.sub, Vec.smul, Vec.dot, Vec.zero, Vec.mult,
    eps, Vec.mk.injEq]

end RayCompute
